import Mathlib

/-!
Verification development for the AI-Medical-Chatbot repository.

Python strings and byte strings are modelled as `List Nat` of code points /
byte values (`str.encode` / `bytes.decode` are mutually inverse between
strings and their UTF-8 byte sequences, so both sides of that bijection are
identified here).  Fallible Python code is modelled with `Option` / `Except`:
a raised exception is `Except.error`, a caught-and-defaulted exception is the
default value the handler returns.

The Fernet cipher (`cryptography.fernet.Fernet`) is third-party library code,
not part of this repository; it is modelled as an abstract pair of fallible
functions, and theorems that depend on its contract (decrypting an encrypted
token yields the original message, tokens are non-empty byte strings) take
that contract as an explicit hypothesis.

`base64.urlsafe_b64encode` / `urlsafe_b64decode` are modelled concretely
(`b64Encode` / `b64DecodeGroups` below), since the wrappers in
`src/utils/encryption.py` pass every value through them.  The decoder is
modelled strictly (it rejects any input that is not well-formed padded
base64); the claims settled here do not depend on `binascii`'s leniency
towards stray non-alphabet characters.
-/

/-- Urlsafe base64 alphabet of `base64.urlsafe_b64encode`:
index `0`-`25` ↦ `A`-`Z`, `26`-`51` ↦ `a`-`z`, `52`-`61` ↦ `0`-`9`,
`62` ↦ `-`, `63` ↦ `_`. -/
def b64AlphaChar (v : Nat) : Nat :=
  if v < 26 then 65 + v
  else if v < 52 then 97 + (v - 26)
  else if v < 62 then 48 + (v - 52)
  else if v = 62 then 45
  else 95

/-- Inverse of the urlsafe base64 alphabet: character code to sextet value. -/
def b64Inv (c : Nat) : Option Nat :=
  if 65 ≤ c ∧ c ≤ 90 then some (c - 65)
  else if 97 ≤ c ∧ c ≤ 122 then some (c - 97 + 26)
  else if 48 ≤ c ∧ c ≤ 57 then some (c - 48 + 52)
  else if c = 45 then some 62
  else if c = 95 then some 63
  else none

/-- `base64.urlsafe_b64encode` over byte lists: three bytes become four
alphabet characters, a trailing group of one or two bytes is padded with
`=` (code 61). -/
def b64Encode : List Nat → List Nat
  | [] => []
  | [b0] => [b64AlphaChar (b0 / 4), b64AlphaChar (b0 % 4 * 16), 61, 61]
  | [b0, b1] => [b64AlphaChar (b0 / 4), b64AlphaChar (b0 % 4 * 16 + b1 / 16),
      b64AlphaChar (b1 % 16 * 4), 61]
  | b0 :: b1 :: b2 :: rest =>
      b64AlphaChar (b0 / 4) :: b64AlphaChar (b0 % 4 * 16 + b1 / 16) ::
      b64AlphaChar (b1 % 16 * 4 + b2 / 64) :: b64AlphaChar (b2 % 64) :: b64Encode rest

/-- `base64.urlsafe_b64decode` over byte lists, strict: the input must be a
sequence of four-character groups, `=` padding may appear only at the very
end.  `none` models the `binascii.Error` exception. -/
def b64DecodeGroups : List Nat → Option (List Nat)
  | [] => some []
  | c0 :: c1 :: c2 :: c3 :: rest =>
    (b64Inv c0).bind fun v0 =>
    (b64Inv c1).bind fun v1 =>
    if c2 = 61 then
      if c3 = 61 ∧ rest = [] then some [v0 * 4 + v1 / 16] else none
    else
      (b64Inv c2).bind fun v2 =>
      if c3 = 61 then
        if rest = [] then some [v0 * 4 + v1 / 16, v1 % 16 * 16 + v2 / 4] else none
      else
        (b64Inv c3).bind fun v3 =>
        (b64DecodeGroups rest).map fun bs =>
          (v0 * 4 + v1 / 16) :: (v1 % 16 * 16 + v2 / 4) :: (v2 % 4 * 64 + v3) :: bs
  | _ => none

/-- Abstract model of `cryptography.fernet.Fernet`: a fallible
encryption/decryption pair over byte strings.  `none` models a raised
exception of the underlying cipher operation. -/
structure Fernet where
  encrypt : List Nat → Option (List Nat)
  decrypt : List Nat → Option (List Nat)

/-- `EncryptionManager.encrypt` / `encrypt_data` (src/utils/encryption.py,
lines 44-54): empty input short-circuits to `""`; otherwise the Fernet token
is base64-encoded; an exception from the cipher is logged and re-raised
(the bare `raise` statement), modelled as `Except.error ()`. -/
def encrypt_data (f : Fernet) (data : List Nat) : Except Unit (List Nat) :=
  if data = [] then Except.ok []
  else
    match f.encrypt data with
    | some token => Except.ok (b64Encode token)
    | none => Except.error ()

/-- `EncryptionManager.decrypt` / `decrypt_data` (src/utils/encryption.py,
lines 56-67): empty input short-circuits to `""`; otherwise the input is
base64-decoded and passed to the Fernet cipher; any exception is caught and
the empty string is returned instead. -/
def decrypt_data (f : Fernet) (encd : List Nat) : List Nat :=
  if encd = [] then []
  else ((b64DecodeGroups encd).bind f.decrypt).getD []

lemma b64Inv_alphaChar {v : Nat} (h : v < 64) : b64Inv (b64AlphaChar v) = some v := by
  interval_cases v <;> rfl

lemma b64AlphaChar_ne_61 {v : Nat} (h : v < 64) : b64AlphaChar v ≠ 61 := by
  interval_cases v <;> simp [b64AlphaChar]

lemma b64_roundtrip : ∀ bs : List Nat, (∀ b ∈ bs, b < 256) →
    b64DecodeGroups (b64Encode bs) = some bs := by
  intro bs
  induction bs using b64Encode.induct with
  | case1 => intro _; rfl
  | case2 b0 =>
    intro h
    have hb0 : b0 < 256 := h b0 (by simp)
    simp only [b64Encode, b64DecodeGroups,
      b64Inv_alphaChar (show b0 / 4 < 64 by omega),
      b64Inv_alphaChar (show b0 % 4 * 16 < 64 by omega)]
    simp
    omega
  | case3 b0 b1 =>
    intro h
    have hb0 : b0 < 256 := h b0 (by simp)
    have hb1 : b1 < 256 := h b1 (by simp)
    simp only [b64Encode, b64DecodeGroups,
      b64Inv_alphaChar (show b0 / 4 < 64 by omega),
      b64Inv_alphaChar (show b0 % 4 * 16 + b1 / 16 < 64 by omega),
      b64Inv_alphaChar (show b1 % 16 * 4 < 64 by omega)]
    simp [b64AlphaChar_ne_61 (show b1 % 16 * 4 < 64 by omega)]
    constructor <;> omega
  | case4 b0 b1 b2 rest ih =>
    intro h
    have hb0 : b0 < 256 := h b0 (by simp)
    have hb1 : b1 < 256 := h b1 (by simp)
    have hb2 : b2 < 256 := h b2 (by simp)
    have hrest : ∀ b ∈ rest, b < 256 := fun b hb => h b (by simp [hb])
    simp only [b64Encode, b64DecodeGroups,
      b64Inv_alphaChar (show b0 / 4 < 64 by omega),
      b64Inv_alphaChar (show b0 % 4 * 16 + b1 / 16 < 64 by omega),
      b64Inv_alphaChar (show b1 % 16 * 4 + b2 / 64 < 64 by omega),
      b64Inv_alphaChar (show b2 % 64 < 64 by omega),
      ih hrest]
    simp [b64AlphaChar_ne_61 (show b1 % 16 * 4 + b2 / 64 < 64 by omega),
      b64AlphaChar_ne_61 (show b2 % 64 < 64 by omega)]
    refine ⟨by omega, by omega, by omega⟩

lemma b64Encode_ne_nil {t : List Nat} (h : t ≠ []) : b64Encode t ≠ [] := by
  match t with
  | [] => exact absurd rfl h
  | [b0] => simp [b64Encode]
  | [b0, b1] => simp [b64Encode]
  | b0 :: b1 :: b2 :: rest => simp [b64Encode]

/-- Shared helper: decrypting the base64 encoding of a valid Fernet token
recovers the token's plaintext. -/
lemma decrypt_data_b64Encode (f : Fernet) (t m : List Nat) (ht : t ≠ [])
    (hb : ∀ b ∈ t, b < 256) (hd : f.decrypt t = some m) :
    decrypt_data f (b64Encode t) = m := by
  rw [decrypt_data, if_neg (b64Encode_ne_nil ht), b64_roundtrip t hb]
  simp [hd]

/-- C1: for every non-empty string on which encryption succeeds, decryption
of the result returns the original string, assuming the Fernet contract
(a produced token decrypts back to its message, is non-empty, and is a byte
string). -/
theorem encrypt_decrypt_roundtrip (f : Fernet) (s c : List Nat)
    (hcontract : ∀ m t, f.encrypt m = some t →
      f.decrypt t = some m ∧ t ≠ [] ∧ ∀ b ∈ t, b < 256)
    (hs : s ≠ []) (he : encrypt_data f s = Except.ok c) :
    decrypt_data f c = s := by
  rw [encrypt_data, if_neg hs] at he
  cases hfe : f.encrypt s with
  | none => rw [hfe] at he; exact absurd he (by simp)
  | some t =>
    rw [hfe] at he
    obtain ⟨hd, ht, hb⟩ := hcontract s t hfe
    have hc : c = b64Encode t := by
      cases he; rfl
    rw [hc]
    exact decrypt_data_b64Encode f t s ht hb hd

/-- A toy cipher satisfying the Fernet contract: prepend a zero byte. -/
def tagFernet : Fernet where
  encrypt := fun s => if s.all (fun b => decide (b < 256)) then some (0 :: s) else none
  decrypt := fun t =>
    match t with
    | 0 :: r => some r
    | _ => none

lemma tagFernet_contract : ∀ m t, tagFernet.encrypt m = some t →
    tagFernet.decrypt t = some m ∧ t ≠ [] ∧ ∀ b ∈ t, b < 256 := by
  intro m t h
  rw [tagFernet] at h
  simp only at h
  by_cases hall : m.all (fun b => decide (b < 256)) = true
  · rw [if_pos hall] at h
    cases h
    refine ⟨rfl, by simp, ?_⟩
    intro b hb
    rcases List.mem_cons.mp hb with rfl | hb
    · omega
    · simpa using List.all_eq_true.mp hall b hb
  · rw [if_neg hall] at h
    exact absurd h (by simp)

/-- Witness for C1 at the concrete input "hi" = [104, 105]. -/
theorem encrypt_decrypt_roundtrip_witness :
    ([104, 105] : List Nat) ≠ [] ∧
    encrypt_data tagFernet [104, 105] = Except.ok (b64Encode [0, 104, 105]) ∧
    decrypt_data tagFernet (b64Encode [0, 104, 105]) = [104, 105] :=
  ⟨by decide, rfl,
    encrypt_decrypt_roundtrip tagFernet [104, 105] (b64Encode [0, 104, 105])
      tagFernet_contract (by decide) rfl⟩

/-- A cipher whose operations always fail. -/
def failFernet : Fernet where
  encrypt := fun _ => none
  decrypt := fun _ => none

/-- C2 counterexample: when the underlying cipher fails, `encrypt_data`
re-raises the exception (models the bare `raise` at
src/utils/encryption.py line 54) instead of returning the empty string. -/
theorem encrypt_failure_raises :
    failFernet.encrypt [104] = none ∧
    encrypt_data failFernet [104] = Except.error () ∧
    encrypt_data failFernet [104] ≠ Except.ok [] := by
  refine ⟨rfl, rfl, by simp [encrypt_data, failFernet]⟩

/-- C2 amended: on a cipher failure, `decrypt_data` swallows the exception
and returns the empty string, while `encrypt_data` propagates the exception
to its caller. -/
theorem cipher_failure_behavior :
    (∀ (f : Fernet) (encd : List Nat), encd ≠ [] →
      (b64DecodeGroups encd = none ∨
        ∃ d, b64DecodeGroups encd = some d ∧ f.decrypt d = none) →
      decrypt_data f encd = []) ∧
    (∀ (f : Fernet) (s : List Nat), s ≠ [] → f.encrypt s = none →
      encrypt_data f s = Except.error ()) := by
  constructor
  · intro f encd hne hfail
    rw [decrypt_data, if_neg hne]
    rcases hfail with hnone | ⟨d, hsome, hdec⟩
    · simp [hnone]
    · simp [hsome, hdec]
  · intro f s hne henc
    rw [encrypt_data, if_neg hne, henc]

/-- Witness for the amended C2 at concrete failing inputs. -/
theorem cipher_failure_behavior_witness :
    decrypt_data failFernet [33] = [] ∧
    encrypt_data failFernet [104] = Except.error () :=
  ⟨cipher_failure_behavior.1 failFernet [33] (by decide) (Or.inl (by decide)),
   cipher_failure_behavior.2 failFernet [104] (by decide) rfl⟩

/-- C9: the empty string bypasses the cipher entirely — for every cipher
(including one that always fails), `encrypt_data` and `decrypt_data` both
map the empty string to the empty string. -/
theorem empty_string_bypasses_cipher (f : Fernet) :
    encrypt_data f [] = Except.ok [] ∧ decrypt_data f [] = [] :=
  ⟨rfl, rfl⟩

/-!
### Password hashing (`UserManager.hash_password` / `verify_password`,
src/database/user_manager.py lines 18-26)

`hashlib.sha256` is Python standard-library code, not part of this
repository; it is modelled as an abstract digest function `H` over byte
strings.  `hexdigest` is modelled concretely.
-/

/-- Hex character of a value `0`-`15`: `0`-`9` then `a`-`f`, as produced by
`hexdigest`. -/
def hexDigitChar (v : Nat) : Nat :=
  if v < 10 then 48 + v else 87 + v

/-- `.hexdigest()`: two lowercase hex characters per digest byte. -/
def hexdigest : List Nat → List Nat
  | [] => []
  | b :: r => hexDigitChar (b / 16) :: hexDigitChar (b % 16) :: hexdigest r

/-- `UserManager.hash_password`: `hashlib.sha256(password.encode()).hexdigest()`
with the digest function `H` abstract. -/
def hash_password (H : List Nat → List Nat) (password : List Nat) : List Nat :=
  hexdigest (H password)

/-- `UserManager.verify_password`: recomputes the hex digest of the candidate
password and compares it with the stored hash. -/
def verify_password (H : List Nat → List Nat) (password hashed : List Nat) : Bool :=
  hexdigest (H password) == hashed

/-- C4: hashing is deterministic (any two invocations agree), verification
succeeds on the original password, and verification of another password
succeeds exactly when its hash equals the stored one. -/
theorem hash_password_deterministic (H : List Nat → List Nat) (p q : List Nat) :
    hash_password H p = hash_password H p ∧
    verify_password H p (hash_password H p) = true ∧
    (verify_password H q (hash_password H p) = true ↔
      hash_password H q = hash_password H p) := by
  refine ⟨rfl, ?_, ?_⟩
  · simp [verify_password, hash_password]
  · simp [verify_password, hash_password]

/-!
### Database session context manager (`DatabaseManager.get_session`,
src/database/database.py lines 58-70)

A database operation (the body of a `with get_session() as session:` block)
is modelled as a fallible state transformer on an abstract database state.
The SQLAlchemy session is a pair of the committed state and the current
uncommitted state; `commit` publishes the current state, `rollback` restores
the committed one.  `get_session` yields to the body, commits on normal
completion, and on an exception rolls back, logs, and re-raises.
-/

/-- An open SQLAlchemy session: committed database state plus the state as
modified by the operations issued so far. -/
structure DbSession (σ : Type) where
  committed : σ
  current : σ

/-- `session.commit()`. -/
def DbSession.commit {σ : Type} (s : DbSession σ) : DbSession σ :=
  { committed := s.current, current := s.current }

/-- `session.rollback()`. -/
def DbSession.rollback {σ : Type} (s : DbSession σ) : DbSession σ :=
  { committed := s.committed, current := s.committed }

/-- `DatabaseManager.get_session`: runs the body on a fresh session over the
database state `db`, commits on success, rolls back, logs and re-raises on
exception.  Returns the body's outcome, the committed database state after
the `with` block, and the log lines emitted. -/
def get_session {σ ε : Type} (body : σ → Except ε σ) (db : σ) :
    Except ε σ × σ × List String :=
  match body (DbSession.mk db db).current with
  | Except.ok cur => (Except.ok cur, (DbSession.commit ⟨db, cur⟩).committed, [])
  | Except.error e =>
      (Except.error e, (DbSession.rollback ⟨db, db⟩).committed, ["Database session error"])

/-- C7: every operation run inside `get_session` either commits all its
changes on normal completion, or — when the body raises — leaves the
committed database state unchanged (rollback), logs the error, and re-raises
the exception to the caller. -/
theorem get_session_commit_or_rollback {σ ε : Type} (body : σ → Except ε σ) (db : σ) :
    (∃ db2, body db = Except.ok db2 ∧
      get_session body db = (Except.ok db2, db2, [])) ∨
    (∃ e, body db = Except.error e ∧
      get_session body db = (Except.error e, db, ["Database session error"])) := by
  cases h : body db with
  | ok db2 => exact Or.inl ⟨db2, rfl, by simp [get_session, DbSession.commit, h]⟩
  | error e => exact Or.inr ⟨e, rfl, by simp [get_session, DbSession.rollback, h]⟩

/-!
### Input validators (src/utils/validators.py)

The validators operate on ASCII code points.  Python's `re` character
classes `\w`, `\d`, `\s` and the methods `str.isalpha` / `str.lower` /
`str.upper` / `str.strip` are modelled over ASCII (the regex patterns in
the source only mention ASCII classes).  The `$` anchor is modelled as
end-of-string (Python's `re` additionally lets `$` match before one
trailing newline; no claim settled here depends on that corner).  The
environment-configured values keep their documented defaults
(`PASSWORD_MIN_LENGTH=8`, `MAX_FILE_SIZE=10485760`,
`ALLOWED_FILE_TYPES=pdf,txt,docx`).
-/

def isUpperCode (c : Nat) : Bool := 65 ≤ c && c ≤ 90
def isLowerCode (c : Nat) : Bool := 97 ≤ c && c ≤ 122
def isAlphaCode (c : Nat) : Bool := isUpperCode c || isLowerCode c
def isDigitCode (c : Nat) : Bool := 48 ≤ c && c ≤ 57
def isAlnumCode (c : Nat) : Bool := isAlphaCode c || isDigitCode c

/-- The regex word class `\w` = `[a-zA-Z0-9_]`. -/
def isWordCode (c : Nat) : Bool := isAlnumCode c || c == 95

/-- The regex whitespace class `\s`. -/
def isSpaceCode (c : Nat) : Bool :=
  c == 32 || c == 9 || c == 10 || c == 13 || c == 12 || c == 11

/-- `str.upper` on one ASCII code point. -/
def pyUpperCode (c : Nat) : Nat := if isLowerCode c then c - 32 else c

/-- `str.lower` on one ASCII code point. -/
def pyLowerCode (c : Nat) : Nat := if isUpperCode c then c + 32 else c

/-- The username class `[a-zA-Z0-9_-]`. -/
def isUsernameChar (c : Nat) : Bool := isAlnumCode c || c == 95 || c == 45

/-- `UserValidator.validate_username` (validators.py lines 16-43). -/
def validate_username (u : List Nat) : Bool × String :=
  if u = [] then (false, "Username is required")
  else if u.length < 3 then (false, "Username must be at least 3 characters long")
  else if u.length > 50 then (false, "Username must be less than 50 characters")
  else if !u.all isUsernameChar then
    (false, "Username can only contain letters, numbers, underscore, and hyphen")
  else if !isAlphaCode (u.headD 0) then (false, "Username must start with a letter")
  else (true, "")

/-- Split a list at the first occurrence of `t`; `none` when `t` is absent. -/
def splitAtFirst (t : Nat) : List Nat → Option (List Nat × List Nat)
  | [] => none
  | c :: r =>
    if c = t then some ([], r)
    else (splitAtFirst t r).map fun p => (c :: p.1, p.2)

/-- The email local-part class `[a-zA-Z0-9._%+-]`. -/
def isEmailLocalChar (c : Nat) : Bool :=
  isAlnumCode c || c == 46 || c == 95 || c == 37 || c == 43 || c == 45

/-- The email domain class `[a-zA-Z0-9.-]`. -/
def isEmailDomainChar (c : Nat) : Bool := isAlnumCode c || c == 46 || c == 45

/-- Matcher for the domain tail `[a-zA-Z0-9.-]+\.[a-zA-Z]` followed by at
least one more letter and the end of the string: since `.` is not a letter,
a match exists exactly when the maximal alphabetic suffix has length at
least two, is preceded by a dot, and everything before that dot is a
non-empty run of domain characters. -/
def matchEmailDomain (d : List Nat) : Bool :=
  let r := d.reverse
  let tld := r.takeWhile isAlphaCode
  decide (2 ≤ tld.length) &&
    (match r.drop tld.length with
     | 46 :: pre => !pre.isEmpty && pre.all isEmailDomainChar
     | _ => false)

/-- The whole email regex of `validate_email`: local part, `@`, domain
tail.  Both character classes exclude `@`, so matching against the first
`@` is exhaustive. -/
def matchEmailRe (e : List Nat) : Bool :=
  match splitAtFirst 64 e with
  | some (l, d) => !l.isEmpty && l.all isEmailLocalChar && matchEmailDomain d
  | none => false

def startsWithL (pre s : List Nat) : Bool := s.take pre.length == pre

/-- Substring containment (`re.search` of a literal). -/
def containsSub (needle : List Nat) : List Nat → Bool
  | [] => startsWithL needle []
  | c :: r => startsWithL needle (c :: r) || containsSub needle r

/-- `UserValidator.validate_email` (validators.py lines 45-80): regex
check, length check, then the `invalid_patterns` loop (consecutive dots,
leading dot, trailing dot). -/
def validate_email (e : List Nat) : Bool × String :=
  if e = [] then (false, "Email is required")
  else if !matchEmailRe e then (false, "Invalid email format")
  else if e.length > 255 then (false, "Email must be less than 255 characters")
  else if containsSub [46, 46] e then (false, "Invalid email format")
  else if e.headD 0 == 46 then (false, "Invalid email format")
  else if e.getLastD 0 == 46 then (false, "Invalid email format")
  else (true, "")

/-- The password special-character class of `validate_password`. -/
def passwordSpecialChars : List Nat :=
  [33, 64, 35, 36, 37, 94, 38, 42, 40, 41, 44, 46, 63, 34, 58, 123, 125, 124, 60, 62]

/-- Number of missing character types (upper, lower, digit, special). -/
def missingTypeCount (p : List Nat) : Nat :=
  (if p.any isUpperCode then 0 else 1) + (if p.any isLowerCode then 0 else 1) +
  (if p.any isDigitCode then 0 else 1) +
  (if p.any (fun c => passwordSpecialChars.contains c) then 0 else 1)

/-- The `weak_passwords` list, lowercased ASCII. -/
def weakPasswords : List (List Nat) :=
  [[112, 97, 115, 115, 119, 111, 114, 100], [49, 50, 51, 52, 53, 54],
   [112, 97, 115, 115, 119, 111, 114, 100, 49, 50, 51], [97, 100, 109, 105, 110],
   [117, 115, 101, 114], [113, 119, 101, 114, 116, 121], [97, 98, 99, 49, 50, 51],
   [108, 101, 116, 109, 101, 105, 110], [119, 101, 108, 99, 111, 109, 101],
   [109, 111, 110, 107, 101, 121]]

/-- `UserValidator.validate_password` (validators.py lines 82-139), with
the default `PASSWORD_MIN_LENGTH` of 8. -/
def validate_password (p : List Nat) : Bool × String :=
  if p = [] then (false, "Password is required")
  else if p.length < 8 then (false, "Password must be at least 8 characters long")
  else if p.length > 128 then (false, "Password must be less than 128 characters")
  else if missingTypeCount p > 1 then
    (false, "Password must contain at least three of: uppercase letter, lowercase letter, digit, special character")
  else if weakPasswords.contains (p.map pyLowerCode) then
    (false, "Password is too common. Please choose a stronger password")
  else (true, "")

/-- The name class `[a-zA-Z\s\-']` (39 is the apostrophe). -/
def isNameChar (c : Nat) : Bool := isAlphaCode c || isSpaceCode c || c == 45 || c == 39

/-- `str.strip`. -/
def stripWs (s : List Nat) : List Nat :=
  ((s.dropWhile isSpaceCode).reverse.dropWhile isSpaceCode).reverse

/-- `UserValidator.validate_name` (validators.py lines 141-168). -/
def validate_name (name : List Nat) (field : String) : Bool × String :=
  if name = [] then (true, "")
  else if name.length > 100 then (false, field ++ " must be less than 100 characters")
  else if !name.all isNameChar then
    (false, field ++ " can only contain letters, spaces, hyphens, and apostrophes")
  else if (stripWs name).length < 1 then (false, field ++ " cannot be empty")
  else (true, "")

/-- The formatting characters removed by `re.sub` in
`validate_phone_number`. -/
def isPhoneSepChar (c : Nat) : Bool :=
  isSpaceCode c || c == 45 || c == 40 || c == 41 || c == 46

/-- The phone regex `^\+?[\d]+$` (43 is the plus sign). -/
def matchPhoneRe (s : List Nat) : Bool :=
  match s with
  | 43 :: rest => !rest.isEmpty && rest.all isDigitCode
  | l => !l.isEmpty && l.all isDigitCode

/-- `UserValidator.validate_phone_number` (validators.py lines 170-196). -/
def validate_phone_number (phone : List Nat) : Bool × String :=
  if phone = [] then (true, "")
  else
    let cleaned := phone.filter (fun c => !isPhoneSepChar c)
    if !matchPhoneRe cleaned then
      (false, "Phone number can only contain digits, spaces, hyphens, parentheses, and + for international numbers")
    else if (cleaned.filter isDigitCode).length < 7 ||
        (cleaned.filter isDigitCode).length > 15 then
      (false, "Phone number must contain 7-15 digits")
    else (true, "")

/-- `re.search`: try the position-local matcher `here` at every position of
the string, tracking the previous character for word boundaries. -/
def scanFrom (here : Option Nat → List Nat → Bool) (prev : Option Nat) : List Nat → Bool
  | [] => here prev []
  | c :: rest => here prev (c :: rest) || scanFrom here (some c) rest

/-- A `\b` word boundary holds before the current position. -/
def boundaryBefore : Option Nat → Bool
  | none => true
  | some c => !isWordCode c

/-- Case-insensitive literal prefix test (`re.IGNORECASE`); `kw` is given
uppercased. -/
def startsWithCI (kw s : List Nat) : Bool := (s.take kw.length).map pyUpperCode == kw

/-- Position-local matcher for `\bKEYWORD\b`, case-insensitive. -/
def kwHere (kw : List Nat) (prev : Option Nat) (s : List Nat) : Bool :=
  boundaryBefore prev && startsWithCI kw s &&
    (match s.drop kw.length with
     | [] => true
     | c :: _ => !isWordCode c)

/-- The SQL keywords of the first `dangerous_patterns` entry, uppercased:
SELECT, INSERT, UPDATE, DELETE, DROP, CREATE, ALTER, EXEC, UNION. -/
def sqlKeywords : List (List Nat) :=
  [[83, 69, 76, 69, 67, 84], [73, 78, 83, 69, 82, 84], [85, 80, 68, 65, 84, 69],
   [68, 69, 76, 69, 84, 69], [68, 82, 79, 80], [67, 82, 69, 65, 84, 69],
   [65, 76, 84, 69, 82], [69, 88, 69, 67], [85, 78, 73, 79, 78]]

/-- After `OR`/`AND`: `\s+\d+\s*=\s*\d+`.  The character classes are
pairwise disjoint and `=` (61) belongs to none of them, so greedy
maximal-munch scanning is equivalent to the regex. -/
def orAndEqTail (s : List Nat) : Bool :=
  let ws1 := s.takeWhile isSpaceCode
  let r1 := s.dropWhile isSpaceCode
  !ws1.isEmpty &&
    (let d1 := r1.takeWhile isDigitCode
     let r2 := r1.dropWhile isDigitCode
     !d1.isEmpty &&
       (match r2.dropWhile isSpaceCode with
        | 61 :: r3 =>
          (match r3.dropWhile isSpaceCode with
           | c :: _ => isDigitCode c
           | [] => false)
        | _ => false))

/-- Position-local matcher for `\b(OR|AND)\s+\d+\s*=\s*\d+`. -/
def orAndEqHere (prev : Option Nat) (s : List Nat) : Bool :=
  boundaryBefore prev &&
    ((startsWithCI [79, 82] s && orAndEqTail (s.drop 2)) ||
     (startsWithCI [65, 78, 68] s && orAndEqTail (s.drop 3)))

/-- The third `dangerous_patterns` entry: any of `'`, `"`, backtick, `;`,
`--`, `*`, `/*`, `*/` occurring anywhere. -/
def sqlPunctPattern (s : List Nat) : Bool :=
  s.contains 39 || s.contains 34 || s.contains 96 || s.contains 59 ||
  containsSub [45, 45] s || s.contains 42 || containsSub [47, 42] s ||
  containsSub [42, 47] s

/-- Position-local matcher for `\bxp_\w+` / `\bsp_\w+` (`first` is the
uppercased first letter, 88 or 83). -/
def procHere (first : Nat) (prev : Option Nat) (s : List Nat) : Bool :=
  boundaryBefore prev && startsWithCI [first, 80, 95] s &&
    (match s.drop 3 with
     | c :: _ => isWordCode c
     | [] => false)

/-- `SecurityValidator.validate_sql_injection` (validators.py lines
432-459): empty input is safe; otherwise the five `dangerous_patterns`
are searched case-insensitively and any hit rejects the input. -/
def validate_sql_injection (s : List Nat) : Bool × String :=
  if s = [] then (true, "")
  else if sqlKeywords.any (fun kw => scanFrom (kwHere kw) none s) ||
      scanFrom orAndEqHere none s || sqlPunctPattern s ||
      scanFrom (procHere 88) none s || scanFrom (procHere 83) none s then
    (false, "Input contains potentially harmful content")
  else (true, "")

/-- The registration-form fields consumed by
`CompositeValidator.validate_user_registration` via `user_data.get(...)`:
a missing or `None` field behaves exactly like the empty string. -/
structure RegData where
  username : List Nat
  email : List Nat
  password : List Nat
  first_name : List Nat
  last_name : List Nat
  phone : List Nat

/-- One `errors.append(f"Field: {error}")` step guarded by
`if not is_valid`. -/
def errIf (pre : String) (r : Bool × String) : List String :=
  if r.1 then [] else [pre ++ r.2]

/-- The `errors` list accumulated by `validate_user_registration`
(validators.py lines 522-578), in source order: username, SQL-injection
check on the username, email, password, then the optional fields guarded
by truthiness. -/
def regErrors (d : RegData) : List String :=
  errIf "Username: " (validate_username d.username) ++
  errIf "Username: " (validate_sql_injection d.username) ++
  errIf "Email: " (validate_email d.email) ++
  errIf "Password: " (validate_password d.password) ++
  (if d.first_name.isEmpty then []
   else errIf "First name: " (validate_name d.first_name "First name")) ++
  (if d.last_name.isEmpty then []
   else errIf "Last name: " (validate_name d.last_name "Last name")) ++
  (if d.phone.isEmpty then [] else errIf "Phone: " (validate_phone_number d.phone))

/-- `CompositeValidator.validate_user_registration`: returns
`(len(errors) == 0, errors)`. -/
def validate_user_registration (d : RegData) : Bool × List String :=
  ((regErrors d).isEmpty, regErrors d)

/-- The conjunction of the individual checks run by
`validate_user_registration`: required-field validators, the SQL-injection
check on the username, and each provided optional field's validator. -/
def regChecksPass (d : RegData) : Bool :=
  (validate_username d.username).1 && (validate_sql_injection d.username).1 &&
  (validate_email d.email).1 && (validate_password d.password).1 &&
  (d.first_name.isEmpty || (validate_name d.first_name "First name").1) &&
  (d.last_name.isEmpty || (validate_name d.last_name "Last name").1) &&
  (d.phone.isEmpty || (validate_phone_number d.phone).1)

/-- Number of failing field checks. -/
def regFailedCount (d : RegData) : Nat :=
  (!(validate_username d.username).1).toNat + (!(validate_sql_injection d.username).1).toNat +
  (!(validate_email d.email).1).toNat + (!(validate_password d.password).1).toNat +
  (!(d.first_name.isEmpty || (validate_name d.first_name "First name").1)).toNat +
  (!(d.last_name.isEmpty || (validate_name d.last_name "Last name").1)).toNat +
  (!(d.phone.isEmpty || (validate_phone_number d.phone).1)).toNat

lemma errIf_length (pre : String) (r : Bool × String) :
    (errIf pre r).length = (!r.1).toNat := by
  cases hr : r.1 <;> simp [errIf, hr]

lemma condErrIf_length (b : Bool) (pre : String) (r : Bool × String) :
    (if b then ([] : List String) else errIf pre r).length = (!(b || r.1)).toNat := by
  cases b <;> cases hr : r.1 <;> simp [errIf, hr]

/-- C5: registration validation returns `(True, [])` exactly when every
individual field check passes; otherwise the error list is non-empty and
carries exactly one entry per failing field check. -/
theorem registration_validation_spec (d : RegData) :
    ((validate_user_registration d).1 = true ↔ regChecksPass d = true) ∧
    (validate_user_registration d).2.length = regFailedCount d ∧
    ((validate_user_registration d).1 = true ↔ (validate_user_registration d).2 = []) := by
  have hfst : (validate_user_registration d).1 = (validate_user_registration d).2.isEmpty := rfl
  have hlen : (validate_user_registration d).2.length = regFailedCount d := by
    simp only [validate_user_registration, regErrors, List.length_append, errIf_length,
      condErrIf_length, regFailedCount]
  have hiff : (validate_user_registration d).1 = true ↔
      (validate_user_registration d).2 = [] := by
    rw [hfst, List.isEmpty_iff]
  have key : ∀ a b c e g h i : Bool,
      ((!a).toNat + (!b).toNat + (!c).toNat + (!e).toNat +
        (!g).toNat + (!h).toNat + (!i).toNat = 0) ↔
      (a && b && c && e && g && h && i) = true := by decide
  refine ⟨?_, hlen, hiff⟩
  rw [hiff, ← List.length_eq_zero, hlen]
  simp only [regFailedCount, regChecksPass]
  exact key _ _ _ _ _ _ _

/-- `ALLOWED_FILE_TYPES` default `pdf,txt,docx`, split on commas. -/
def allowedFileTypes : List (List Nat) := [[112, 100, 102], [116, 120, 116], [100, 111, 99, 120]]

/-- `filename.split(".")[-1].lower() if "." in filename else ""`: the
lowercased segment after the last dot, or empty when there is no dot. -/
def fileExtension (filename : List Nat) : List Nat :=
  if filename.contains 46 then
    ((filename.reverse.takeWhile (fun c => !(c == 46))).reverse).map pyLowerCode
  else []

/-- `FileValidator.validate_file_upload` (validators.py lines 380-416)
under the default configuration (`MAX_FILE_SIZE=10485760`,
`ALLOWED_FILE_TYPES=pdf,txt,docx`).  `[37, 80, 68, 70]` is `%PDF`. -/
def validate_file_upload (content filename : List Nat) : Bool × String :=
  if content = [] then (false, "File content is empty")
  else if content.length > 10485760 then
    (false, "File size exceeds maximum allowed size of 10.0MB")
  else if filename = [] then (false, "Filename is required")
  else if filename.length > 255 then (false, "Filename is too long")
  else if !allowedFileTypes.contains (fileExtension filename) then
    (false, "File type not allowed. Allowed types: pdf, txt, docx")
  else if fileExtension filename == [112, 100, 102] &&
      !(content.take 4 == [37, 80, 68, 70]) then
    (false, "Invalid PDF file format")
  else (true, "")

/-- C8: under the default configuration, an upload is accepted (valid with
empty error message) exactly when the content is non-empty and within the
size limit, the filename is present, at most 255 characters and has an
allowed extension, and a `.pdf` upload starts with the `%PDF` magic; every
other case is rejected. -/
theorem file_upload_validation_spec (content filename : List Nat) :
    ((validate_file_upload content filename).1 = true ↔
      (content ≠ [] ∧ content.length ≤ 10485760 ∧ filename ≠ [] ∧
        filename.length ≤ 255 ∧ fileExtension filename ∈ allowedFileTypes ∧
        (fileExtension filename = [112, 100, 102] → content.take 4 = [37, 80, 68, 70]))) ∧
    ((validate_file_upload content filename).2 = "" ↔
      (validate_file_upload content filename).1 = true) := by
  have h1 : ("File content is empty" : String) ≠ "" := by decide
  have h2 : ("File size exceeds maximum allowed size of 10.0MB" : String) ≠ "" := by decide
  have h3 : ("Filename is required" : String) ≠ "" := by decide
  have h4 : ("Filename is too long" : String) ≠ "" := by decide
  have h5 : ("File type not allowed. Allowed types: pdf, txt, docx" : String) ≠ "" := by decide
  have h6 : ("Invalid PDF file format" : String) ≠ "" := by decide
  unfold validate_file_upload
  split_ifs with c1 c2 c3 c4 c5 c6 <;> simp_all

/-!
### Chat sessions and messages (src/database/user_manager.py, SessionManager)

The relational state visible to `delete_session`, `bookmark_message` and
`rate_message` is the `chat_sessions` and `chat_messages` tables
(src/database/models.py).  Primary keys (UUID strings) are modelled as
opaque `Nat` identifiers.  A SQLAlchemy `query(...).filter(...).first()`
is the first list element satisfying the filter;
`query(ChatMessage).join(ChatSession)` pairs a message with the session
whose `id` equals the message's `session_id`.  `session.delete` on a
`ChatSession` also deletes its messages because of the
`cascade="all, delete-orphan"` relationship in the model.
-/

/-- A `chat_sessions` row (the columns used by the claims). -/
structure SessionRow where
  id : Nat
  userId : Nat
deriving DecidableEq

/-- A `chat_messages` row (the columns used by the claims). -/
structure MessageRow where
  id : Nat
  sessionId : Nat
  isBookmarked : Bool
  userRating : Option Int
deriving DecidableEq

/-- The chat tables. -/
structure ChatDB where
  sessions : List SessionRow
  messages : List MessageRow
deriving DecidableEq

/-- Delete the first element satisfying `p` (SQLAlchemy `session.delete`
of the row returned by `.first()`). -/
def removeFirst {α : Type} (p : α → Bool) : List α → List α
  | [] => []
  | x :: xs => if p x then xs else x :: removeFirst p xs

/-- Update the first element satisfying `p`; `none` when no row matches
(`.first()` returned `None`). -/
def updateFirst {α : Type} (p : α → Bool) (fn : α → α) : List α → Option (List α)
  | [] => none
  | x :: xs => if p x then some (fn x :: xs) else (updateFirst p fn xs).map (x :: ·)

/-- The filter of `delete_session`:
`ChatSession.id == session_id and ChatSession.user_id == user_id`. -/
def sessOwnedPred (sid uid : Nat) (r : SessionRow) : Bool :=
  r.id == sid && r.userId == uid

/-- `SessionManager.delete_session` (user_manager.py lines 395-420): find
the session owned by the requesting user; if present delete it, cascading
to its messages, and return `True`; otherwise return `False`. -/
def delete_session (sid uid : Nat) (db : ChatDB) : Bool × ChatDB :=
  match db.sessions.find? (sessOwnedPred sid uid) with
  | some _ =>
      (true, { sessions := removeFirst (sessOwnedPred sid uid) db.sessions,
               messages := db.messages.filter (fun m => !(m.sessionId == sid)) })
  | none => (false, db)

/-- The join-filter of `bookmark_message` / `rate_message`:
`ChatMessage.id == message_id` joined with a `ChatSession` row whose
`user_id` is the requesting user. -/
def msgOwnedPred (db : ChatDB) (mid uid : Nat) (m : MessageRow) : Bool :=
  m.id == mid && db.sessions.any (fun s => s.id == m.sessionId && s.userId == uid)

/-- `SessionManager.bookmark_message` (user_manager.py lines 371-391):
toggle the bookmark flag of the matching owned message, `False` when no
such message exists. -/
def bookmark_message (mid uid : Nat) (db : ChatDB) : Bool × ChatDB :=
  match updateFirst (msgOwnedPred db mid uid)
      (fun m => { m with isBookmarked := !m.isBookmarked }) db.messages with
  | some ms => (true, { db with messages := ms })
  | none => (false, db)

/-- `SessionManager.rate_message` (user_manager.py lines 422-442): set the
rating of the matching owned message when `1 <= rating <= 5`, `False`
otherwise. -/
def rate_message (mid uid : Nat) (rating : Int) (db : ChatDB) : Bool × ChatDB :=
  if 1 ≤ rating ∧ rating ≤ 5 then
    match updateFirst (msgOwnedPred db mid uid)
        (fun m => { m with userRating := some rating }) db.messages with
    | some ms => (true, { db with messages := ms })
    | none => (false, db)
  else (false, db)

/-- The targeted session exists and belongs to the user. -/
def ownedSession (sid uid : Nat) (db : ChatDB) : Bool :=
  db.sessions.any (sessOwnedPred sid uid)

/-- The targeted message exists and its chat session belongs to the user. -/
def ownedMessage (mid uid : Nat) (db : ChatDB) : Bool :=
  db.messages.any (msgOwnedPred db mid uid)

lemma updateFirst_eq_none {α : Type} (p : α → Bool) (fn : α → α) (l : List α)
    (h : ∀ x ∈ l, p x = false) : updateFirst p fn l = none := by
  induction l with
  | nil => rfl
  | cons x xs ih =>
    rw [updateFirst, if_neg (by simp [h x (by simp)]), ih (fun y hy => h y (by simp [hy]))]
    rfl

lemma removeFirst_all_not {α : Type} (p q : α → Bool) (hpq : ∀ x, p x = true → q x = true) :
    ∀ l : List α, l.countP q ≤ 1 → (∃ x ∈ l, p x = true) →
      ∀ y ∈ removeFirst p l, q y = false := by
  intro l
  induction l with
  | nil => rintro _ ⟨x, hx, _⟩; exact absurd hx (List.not_mem_nil x)
  | cons x xs ih =>
    intro hcount hex y hy
    by_cases hpx : p x = true
    · rw [removeFirst, if_pos hpx] at hy
      have hqx : q x = true := hpq x hpx
      have h0 : xs.countP q = 0 := by
        rw [List.countP_cons, hqx, if_pos rfl] at hcount
        omega
      have := List.countP_eq_zero.mp h0 y hy
      simpa using this
    · rw [removeFirst, if_neg hpx] at hy
      obtain ⟨z, hz, hpz⟩ := hex
      rcases List.mem_cons.mp hz with rfl | hzxs
      · exact absurd hpz hpx
      · have hqz : q z = true := hpq z hpz
        have hxs1 : 1 ≤ xs.countP q :=
          List.countP_pos_iff.mpr ⟨z, hzxs, hqz⟩
        have hqx : q x = false := by
          by_contra hqx
          rw [List.countP_cons, eq_true_of_ne_false hqx, if_pos rfl] at hcount
          omega
        rcases List.mem_cons.mp hy with rfl | hyr
        · exact hqx
        · refine ih (le_trans ?_ hcount) ⟨z, hzxs, hpz⟩ y hyr
          rw [List.countP_cons]
          exact Nat.le_add_right _ _

/-- C3: when a chat session with the given id belongs to the requesting
user (and, as for any primary key, at most one session row carries that
id), `delete_session` returns `True` and afterwards no session row with
that id and no chat message with that `session_id` remains. -/
theorem session_cascade_delete (sid uid : Nat) (db : ChatDB)
    (howner : ownedSession sid uid db = true)
    (huniq : db.sessions.countP (fun r => r.id == sid) ≤ 1) :
    (delete_session sid uid db).1 = true ∧
    (∀ r ∈ (delete_session sid uid db).2.sessions, r.id ≠ sid) ∧
    (∀ m ∈ (delete_session sid uid db).2.messages, m.sessionId ≠ sid) := by
  obtain ⟨r0, hr0, hpr0⟩ := List.any_eq_true.mp howner
  have hfind : (db.sessions.find? (sessOwnedPred sid uid)).isSome :=
    List.find?_isSome.mpr ⟨r0, hr0, hpr0⟩
  obtain ⟨rf, hrf⟩ := Option.isSome_iff_exists.mp hfind
  rw [delete_session, hrf]
  refine ⟨rfl, ?_, ?_⟩
  · intro r hr
    have := removeFirst_all_not (sessOwnedPred sid uid) (fun r => r.id == sid)
      (fun x hx => by
        rw [sessOwnedPred] at hx
        exact (Bool.and_eq_true _ _ ▸ hx).1)
      db.sessions huniq ⟨r0, hr0, hpr0⟩ r hr
    simpa using this
  · intro m hm
    have := (List.mem_filter.mp hm).2
    simpa using this

/-- C10: the per-message and per-session mutations enforce ownership:
when the targeted message's session (resp. the targeted session) does not
belong to the given user — or, for `rate_message`, when the rating is out
of the 1-5 range — the call returns `False` and leaves the database
unchanged. -/
theorem ownership_enforced (mid sid uid : Nat) (rating : Int) (db : ChatDB) :
    (ownedMessage mid uid db = false → bookmark_message mid uid db = (false, db)) ∧
    ((ownedMessage mid uid db = false ∨ ¬(1 ≤ rating ∧ rating ≤ 5)) →
      rate_message mid uid rating db = (false, db)) ∧
    (ownedSession sid uid db = false → delete_session sid uid db = (false, db)) := by
  refine ⟨?_, ?_, ?_⟩
  · intro h
    have hall : ∀ m ∈ db.messages, msgOwnedPred db mid uid m = false := by
      intro m hm
      exact Bool.eq_false_iff.mpr fun hc =>
        (Bool.eq_false_iff.mp h) (List.any_eq_true.mpr ⟨m, hm, hc⟩)
    rw [bookmark_message, updateFirst_eq_none _ _ _ hall]
  · intro h
    by_cases hr : 1 ≤ rating ∧ rating ≤ 5
    · rcases h with h | h
      · have hall : ∀ m ∈ db.messages, msgOwnedPred db mid uid m = false := by
          intro m hm
          exact Bool.eq_false_iff.mpr fun hc =>
            (Bool.eq_false_iff.mp h) (List.any_eq_true.mpr ⟨m, hm, hc⟩)
        rw [rate_message, if_pos hr, updateFirst_eq_none _ _ _ hall]
      · exact absurd hr h
    · rw [rate_message, if_neg hr]
  · intro h
    have hall : ∀ r ∈ db.sessions, ¬ sessOwnedPred sid uid r = true := by
      intro r hr hc
      exact (Bool.eq_false_iff.mp h) (List.any_eq_true.mpr ⟨r, hr, hc⟩)
    rw [delete_session, List.find?_eq_none.mpr hall]

/-- Example database for C3: user 10 owns session 1 which has one message;
session 2 (user 20) has another. -/
def dbC3 : ChatDB :=
  ⟨[⟨1, 10⟩, ⟨2, 20⟩], [⟨5, 1, false, none⟩, ⟨6, 2, false, none⟩]⟩

/-- Witness for C3 at a concrete database. -/
theorem session_cascade_delete_witness :
    (delete_session 1 10 dbC3).1 = true ∧
    (∀ r ∈ (delete_session 1 10 dbC3).2.sessions, r.id ≠ 1) ∧
    (∀ m ∈ (delete_session 1 10 dbC3).2.messages, m.sessionId ≠ 1) :=
  session_cascade_delete 1 10 dbC3 (by decide) (by decide)

/-- Example database for C10: message 7 belongs to session 3, which does
not exist, so user 20 owns neither message 7 nor session 9. -/
def dbC10 : ChatDB := ⟨[⟨2, 20⟩], [⟨7, 3, false, none⟩]⟩

/-- Witness for C10 at a concrete database without ownership. -/
theorem ownership_enforced_witness :
    bookmark_message 7 20 dbC10 = (false, dbC10) ∧
    rate_message 7 20 9 dbC10 = (false, dbC10) ∧
    delete_session 9 20 dbC10 = (false, dbC10) :=
  ⟨(ownership_enforced 7 9 20 9 dbC10).1 (by decide),
   (ownership_enforced 7 9 20 9 dbC10).2.1 (Or.inr (by decide)),
   (ownership_enforced 7 9 20 9 dbC10).2.2 (by decide)⟩

/-!
### Encrypted medical profile (src/database/user_manager.py, UserManager)

`update_medical_profile` (lines 162-186) writes
`encrypt_data(json.dumps(value))` into the user row for each key present in
the input dictionary; `get_user_medical_data` (lines 188-223) reads the
row back, decrypting and JSON-parsing each non-empty stored field and
substituting `[]` when that fails.  `json.dumps` / `json.loads` are Python
standard-library code, modelled as an abstract serializer pair over lists
of strings; theorems that need the JSON round trip take it as a pointwise
hypothesis.  An exception during the update (a failing encryption) is
caught after the session rolled back, so the operation returns `False`
with the users table unchanged.
-/

/-- A `users` row (the columns used by the claims): encrypted medical
fields are `Option` text columns, `none` being SQL `NULL`. -/
structure UserRow where
  id : Nat
  medical_conditions : Option (List Nat)
  medications : Option (List Nat)
  allergies : Option (List Nat)
  emergency_contact : Option (List Nat)
deriving DecidableEq

/-- The `medical_data` dictionary passed to `update_medical_profile`:
`none` models an absent key. -/
structure MedInput where
  medical_conditions : Option (List (List Nat))
  medications : Option (List (List Nat))
  allergies : Option (List (List Nat))
  emergency_contact : Option (List (List Nat))

/-- The dictionary returned by `get_user_medical_data`: `none` models an
absent key. -/
structure MedOutput where
  medical_conditions : Option (List (List Nat))
  medications : Option (List (List Nat))
  allergies : Option (List (List Nat))
deriving DecidableEq

/-- Replace the first element satisfying `p` by its image under `fn`
(mutating the ORM object returned by `.first()`). -/
def replaceFirst {α : Type} (p : α → Bool) (fn : α → α) : List α → List α
  | [] => []
  | x :: xs => if p x then fn x :: xs else x :: replaceFirst p fn xs

/-- One `if 'key' in medical_data: ... encrypt_data(json.dumps(...))` step:
absent key updates nothing; a present key is serialized and encrypted, and
an encryption exception propagates. -/
def encUpd (f : Fernet) (dumps : List (List Nat) → List Nat) :
    Option (List (List Nat)) → Except Unit (Option (List Nat))
  | none => Except.ok none
  | some v => (encrypt_data f (dumps v)).map some

/-- Apply an optional new column value. -/
def updOpt {α : Type} (n : Option α) (old : Option α) : Option α :=
  match n with
  | some v => some v
  | none => old

/-- Apply the four optional encrypted column updates to a user row. -/
def applyMedUpd (mc me al ec : Option (List Nat)) (u : UserRow) : UserRow :=
  { u with medical_conditions := updOpt mc u.medical_conditions,
           medications := updOpt me u.medications,
           allergies := updOpt al u.allergies,
           emergency_contact := updOpt ec u.emergency_contact }

/-- `UserManager.update_medical_profile`: missing user returns `False`;
an encryption failure is caught (after rollback) and returns `False` with
the table unchanged; otherwise the provided fields are stored encrypted
and the call returns `True`. -/
def update_medical_profile (f : Fernet) (dumps : List (List Nat) → List Nat)
    (uid : Nat) (md : MedInput) (users : List UserRow) : Bool × List UserRow :=
  match users.find? (fun u => u.id == uid) with
  | none => (false, users)
  | some _ =>
    match encUpd f dumps md.medical_conditions, encUpd f dumps md.medications,
        encUpd f dumps md.allergies, encUpd f dumps md.emergency_contact with
    | Except.ok mc, Except.ok me, Except.ok al, Except.ok ec =>
        (true, replaceFirst (fun u => u.id == uid) (applyMedUpd mc me al ec) users)
    | _, _, _, _ => (false, users)

/-- Read one stored medical field: a `NULL` or empty (falsy) column is
skipped; otherwise it is decrypted and parsed, and a decryption or parse
failure yields the empty list. -/
def readMedField (f : Fernet) (loads : List Nat → Option (List (List Nat))) :
    Option (List Nat) → Option (List (List Nat))
  | none => none
  | some [] => none
  | some s =>
    match loads (decrypt_data f s) with
    | some v => some v
    | none => some []

/-- `UserManager.get_user_medical_data`: decrypted medical data of the
user, empty for a missing user. -/
def get_user_medical_data (f : Fernet) (loads : List Nat → Option (List (List Nat)))
    (uid : Nat) (users : List UserRow) : MedOutput :=
  match users.find? (fun u => u.id == uid) with
  | none => ⟨none, none, none⟩
  | some u =>
      ⟨readMedField f loads u.medical_conditions,
       readMedField f loads u.medications,
       readMedField f loads u.allergies⟩

lemma find?_replaceFirst {α : Type} (p : α → Bool) (fn : α → α) (l : List α) (x : α)
    (hfind : l.find? p = some x) (hfn : p (fn x) = true) :
    (replaceFirst p fn l).find? p = some (fn x) := by
  induction l with
  | nil => simp at hfind
  | cons y ys ih =>
    by_cases hpy : p y = true
    · have hsome : some y = some x := by rwa [List.find?_cons_of_pos _ hpy] at hfind
      obtain rfl : y = x := Option.some.inj hsome
      rw [replaceFirst, if_pos hpy, List.find?_cons_of_pos _ hfn]
    · have hfind2 : ys.find? p = some x := by
        rwa [List.find?_cons_of_neg _ hpy] at hfind
      rw [replaceFirst, if_neg (by simp [Bool.eq_false_iff.mpr hpy]),
        List.find?_cons_of_neg _ hpy]
      exact ih hfind2

lemma readMedField_of_ne_nil (f : Fernet) (loads : List Nat → Option (List (List Nat)))
    (s : List Nat) (h : s ≠ []) :
    readMedField f loads (some s) =
      match loads (decrypt_data f s) with
      | some v => some v
      | none => some [] := by
  cases s with
  | nil => exact absurd rfl h
  | cons c cs => rfl

/-- C6: for an existing user and medical data providing the three list
fields, `update_medical_profile` succeeds and stores each field as the
encryption of its JSON serialization, and a subsequent
`get_user_medical_data` returns the same lists.  The hypotheses are the
library contracts at the values involved: each serialized field is a
non-empty string, the cipher encrypts it to a non-empty token of bytes
that decrypts back, and JSON parsing inverts serialization. -/
theorem medical_profile_roundtrip (f : Fernet) (dumps : List (List Nat) → List Nat)
    (loads : List Nat → Option (List (List Nat))) (uid : Nat) (md : MedInput)
    (users : List UserRow) (u0 : UserRow) (mcv mev alv : List (List Nat))
    (tmc tme tal : List Nat) (ecv : Option (List Nat))
    (hfind : users.find? (fun u => u.id == uid) = some u0)
    (hmc : md.medical_conditions = some mcv)
    (hme : md.medications = some mev)
    (hal : md.allergies = some alv)
    (hec : encUpd f dumps md.emergency_contact = Except.ok ecv)
    (hdmc : dumps mcv ≠ []) (hdme : dumps mev ≠ []) (hdal : dumps alv ≠ [])
    (hemc : f.encrypt (dumps mcv) = some tmc)
    (heme : f.encrypt (dumps mev) = some tme)
    (heal : f.encrypt (dumps alv) = some tal)
    (hmcne : tmc ≠ []) (hmene : tme ≠ []) (halne : tal ≠ [])
    (hmcb : ∀ b ∈ tmc, b < 256) (hmeb : ∀ b ∈ tme, b < 256) (halb : ∀ b ∈ tal, b < 256)
    (hdmc2 : f.decrypt tmc = some (dumps mcv))
    (hdme2 : f.decrypt tme = some (dumps mev))
    (hdal2 : f.decrypt tal = some (dumps alv))
    (hlmc : loads (dumps mcv) = some mcv)
    (hlme : loads (dumps mev) = some mev)
    (hlal : loads (dumps alv) = some alv) :
    (update_medical_profile f dumps uid md users).1 = true ∧
    ((update_medical_profile f dumps uid md users).2.find? (fun u => u.id == uid) =
      some (applyMedUpd (some (b64Encode tmc)) (some (b64Encode tme))
        (some (b64Encode tal)) ecv u0)) ∧
    get_user_medical_data f loads uid (update_medical_profile f dumps uid md users).2 =
      ⟨some mcv, some mev, some alv⟩ := by
  have emc : encUpd f dumps md.medical_conditions = Except.ok (some (b64Encode tmc)) := by
    rw [hmc]
    simp [encUpd, encrypt_data, Except.map, hdmc, hemc]
  have eme : encUpd f dumps md.medications = Except.ok (some (b64Encode tme)) := by
    rw [hme]
    simp [encUpd, encrypt_data, Except.map, hdme, heme]
  have eal : encUpd f dumps md.allergies = Except.ok (some (b64Encode tal)) := by
    rw [hal]
    simp [encUpd, encrypt_data, Except.map, hdal, heal]
  have hup : update_medical_profile f dumps uid md users =
      (true, replaceFirst (fun u => u.id == uid)
        (applyMedUpd (some (b64Encode tmc)) (some (b64Encode tme))
          (some (b64Encode tal)) ecv) users) := by
    rw [update_medical_profile, hfind, emc, eme, eal, hec]
  have hpid : (fun u => u.id == uid) (applyMedUpd (some (b64Encode tmc))
      (some (b64Encode tme)) (some (b64Encode tal)) ecv u0) = true := by
    have := List.find?_some hfind
    simpa [applyMedUpd] using this
  have hfind2 : (replaceFirst (fun u => u.id == uid)
      (applyMedUpd (some (b64Encode tmc)) (some (b64Encode tme))
        (some (b64Encode tal)) ecv) users).find? (fun u => u.id == uid) =
      some (applyMedUpd (some (b64Encode tmc)) (some (b64Encode tme))
        (some (b64Encode tal)) ecv u0) :=
    find?_replaceFirst _ _ _ _ hfind hpid
  refine ⟨by rw [hup], by rw [hup]; exact hfind2, ?_⟩
  rw [hup]
  rw [get_user_medical_data, hfind2]
  have rmc : readMedField f loads (some (b64Encode tmc)) = some mcv := by
    rw [readMedField_of_ne_nil f loads _ (b64Encode_ne_nil hmcne),
      decrypt_data_b64Encode f tmc (dumps mcv) hmcne hmcb hdmc2, hlmc]
  have rme : readMedField f loads (some (b64Encode tme)) = some mev := by
    rw [readMedField_of_ne_nil f loads _ (b64Encode_ne_nil hmene),
      decrypt_data_b64Encode f tme (dumps mev) hmene hmeb hdme2, hlme]
  have ral : readMedField f loads (some (b64Encode tal)) = some alv := by
    rw [readMedField_of_ne_nil f loads _ (b64Encode_ne_nil halne),
      decrypt_data_b64Encode f tal (dumps alv) halne halb hdal2, hlal]
  simp [applyMedUpd, updOpt, rmc, rme, ral]

/-- Toy serializer for the C6 witness, correct at the three values used. -/
def dumpsT : List (List Nat) → List Nat
  | [[65]] => [91, 65]
  | [[66]] => [91, 66]
  | [[67]] => [91, 67]
  | _ => []

/-- Toy parser inverting `dumpsT` at the values used. -/
def loadsT : List Nat → Option (List (List Nat))
  | [91, 65] => some [[65]]
  | [91, 66] => some [[66]]
  | [91, 67] => some [[67]]
  | _ => none

/-- Example users table for C6: one user with empty medical profile. -/
def usersC6 : List UserRow := [⟨1, none, none, none, none⟩]

/-- Example medical-data dictionary for C6. -/
def mdC6 : MedInput := ⟨some [[65]], some [[66]], some [[67]], none⟩

/-- Witness for C6 at a concrete user, cipher and serializer. -/
theorem medical_profile_roundtrip_witness :
    (update_medical_profile tagFernet dumpsT 1 mdC6 usersC6).1 = true ∧
    ((update_medical_profile tagFernet dumpsT 1 mdC6 usersC6).2.find? (fun u => u.id == 1) =
      some (applyMedUpd (some (b64Encode [0, 91, 65])) (some (b64Encode [0, 91, 66]))
        (some (b64Encode [0, 91, 67])) none ⟨1, none, none, none, none⟩)) ∧
    get_user_medical_data tagFernet loadsT 1
        (update_medical_profile tagFernet dumpsT 1 mdC6 usersC6).2 =
      ⟨some [[65]], some [[66]], some [[67]]⟩ :=
  medical_profile_roundtrip tagFernet dumpsT loadsT 1 mdC6 usersC6
    ⟨1, none, none, none, none⟩ [[65]] [[66]] [[67]]
    [0, 91, 65] [0, 91, 66] [0, 91, 67] none
    rfl rfl rfl rfl rfl
    (by decide) (by decide) (by decide)
    rfl rfl rfl
    (by decide) (by decide) (by decide)
    (by decide) (by decide) (by decide)
    rfl rfl rfl
    rfl rfl rfl
